import Mathlib

/-!
Verification of the k64_hal peripheral access layer (GPIO pin capability
system and I2C bus-master driver) against its natural-language specification.

The Rust sources are shallowly embedded:
* `src/gpio.rs`: a GPIO bank's registers (PDOR, PDDR and the hardware input
  levels feeding PDIR) become a record `GpioBank`; the `GpioRegExt` trait
  methods and the pin-level wrappers become pure functions on that record.
  The PDIR (port data input) register is modelled as reflecting the driven
  PDOR level on bits configured as outputs in PDDR and the external pin
  level elsewhere.
* `src/i2c.rs`: the I2C peripheral's registers (S, FLT, C1, D) become a
  record `I2cState` together with a trace of hardware events; every read of
  the status register S consumes one event.  Write-1-to-clear semantics of
  the latched flags (ARBL, IICIF, STARTF, STOPF) are modelled explicitly,
  including the svd2rust `modify` read-back behaviour.  Unbounded poll
  loops take a fuel argument and return `none` when the fuel runs out
  (the real code would still be spinning); `I2cError` is the source enum.
-/

/-! ## GPIO embedding (src/gpio.rs) -/

def mask32 : Nat := 0xFFFFFFFF

/-- State of one GPIO bank: `pdor` is the port data output register,
`pddr` the port data direction register, and `extIn` the external input
levels presented to bits that are not configured as outputs. -/
structure GpioBank where
  pdor : Nat
  pddr : Nat
  extIn : Nat
deriving Repr, DecidableEq

/-- Value read from the PDIR (port data input) register: bits driven as
outputs read back their PDOR level, the rest read the external level. -/
def pdirValue (b : GpioBank) : Nat :=
  (b.pdor &&& b.pddr) ||| (b.extIn &&& (mask32 ^^^ b.pddr))

namespace GpioRegExt

/-- `fn is_low(&self, pos: u8) -> bool { (self.pdir.read().bits() >> pos) == 0 }` -/
def is_low (b : GpioBank) (pos : Nat) : Bool :=
  (pdirValue b >>> pos) == 0

/-- `fn is_set_low(&self, pos: u8) -> bool { (self.pdir.read().bits() >> pos) == 0 }` -/
def is_set_low (b : GpioBank) (pos : Nat) : Bool :=
  (pdirValue b >>> pos) == 0

/-- `fn set_high(&self, pos: u8) { self.psor.write(|w| w.bits(1 << pos)) }`;
a PSOR write sets the corresponding PDOR bits. -/
def set_high (b : GpioBank) (pos : Nat) : GpioBank :=
  { b with pdor := (b.pdor ||| ((1 <<< pos) &&& mask32)) }

/-- `fn set_low(&self, pos: u8) { self.pcor.write(|w| w.bits(1 << pos)) }`;
a PCOR write clears the corresponding PDOR bits. -/
def set_low (b : GpioBank) (pos : Nat) : GpioBank :=
  { b with pdor := b.pdor &&& (mask32 ^^^ ((1 <<< pos) &&& mask32)) }

end GpioRegExt

/-- The uninhabited error type of the digital pin traits
(`core::convert::Infallible`). -/
inductive Infallible : Type

namespace PinOps

/-- `InputPin::is_low` for `$PXi<Input<MODE>>` / `$PXi<Output<OpenDrain>>`:
`Ok(unsafe { (*$GPIOX::ptr()).is_low($i) })`. -/
def is_low (b : GpioBank) (i : Nat) : Except Infallible Bool :=
  Except.ok (GpioRegExt.is_low b i)

/-- `InputPin::is_high`: `self.is_low().map(|v| !v)`. -/
def is_high (b : GpioBank) (i : Nat) : Except Infallible Bool :=
  (is_low b i).map (fun v => !v)

/-- `StatefulOutputPin::is_set_low`: `Ok(unsafe { (*$GPIOX::ptr()).is_set_low($i)})`. -/
def is_set_low (b : GpioBank) (i : Nat) : Except Infallible Bool :=
  Except.ok (GpioRegExt.is_set_low b i)

/-- `StatefulOutputPin::is_set_high`: `self.is_set_low().map(|v| !v)`. -/
def is_set_high (b : GpioBank) (i : Nat) : Except Infallible Bool :=
  (is_set_low b i).map (fun v => !v)

/-- `OutputPin::set_high` for `$PXi<Output<MODE>>`. -/
def set_high (b : GpioBank) (i : Nat) : GpioBank :=
  GpioRegExt.set_high b i

/-- `OutputPin::set_low` for `$PXi<Output<MODE>>`. -/
def set_low (b : GpioBank) (i : Nat) : GpioBank :=
  GpioRegExt.set_low b i

end PinOps

/-- `into_output`: `gpio.pddr.modify(|_, w| unsafe { w.bits(1 << $i) })` —
the closure ignores the read value, so the whole PDDR register is
overwritten with the single-bit mask. -/
def into_output (i : Nat) (b : GpioBank) : GpioBank :=
  { b with pddr := (1 <<< i) % 2 ^ 32 }

/-! Pin control register (PCR) transitions.  The PCR is a 32-bit register
whose MUX field is bits 8..10 and whose ODE (open drain enable) bit is
bit 5. -/

/-- `fn _set_alternate_function(mode: u8)`:
`port.pcr.modify(|_, w| w.mux().bits(mode))` — a read-modify-write that
replaces only the 3-bit MUX field. -/
def set_alternate_function (mode : Nat) (pcr : Nat) : Nat :=
  (pcr &&& (mask32 ^^^ (7 <<< 8))) ||| ((mode % 8) <<< 8)

/-- A `modify(|_, w| unsafe { w.bits(v) })` on the PCR: the closure ignores
the read value, so the whole register becomes `v`. -/
def pcrWriteBits (v : Nat) (_pcr : Nat) : Nat :=
  v % 2 ^ 32

/-- The MUX (multiplexer) field of a PCR value, bits 8..10. -/
def muxField (pcr : Nat) : Nat :=
  (pcr >>> 8) &&& 7

/-- `into_alternate_af5`: `Self::_set_alternate_function(5)`. -/
def into_alternate_af5 (pcr : Nat) : Nat :=
  set_alternate_function 5 pcr

/-- `into_af5_outputdrain`: `Self::_set_alternate_function(5)` followed by
`port.pcr.modify(|_, w| unsafe { w.bits(0x23) })`. -/
def into_af5_outputdrain (pcr : Nat) : Nat :=
  pcrWriteBits 0x23 (set_alternate_function 5 pcr)

/-- `into_open_drain`: the function body performs no register access at all
and only returns a retagged pin value. -/
def into_open_drain (pcr : Nat) : Nat :=
  pcr

/-! ## I2C embedding (src/i2c.rs)

Hardware model: the status register S has three level bits (TCF, BUSY,
RXAK) that track the bus and two latched write-1-to-clear bits (ARBL,
IICIF); the FLT register has two latched write-1-to-clear bits (STARTF,
STOPF).  Hardware activity is a finite trace of events; one event is
consumed at every read of S (including the read inside a `modify`): the
level bits take the event's values and the latched bits are OR-ed with the
event's set-requests.  When the trace is exhausted the hardware is
quiescent and reads return the current latch.  A svd2rust `modify` on a
write-1-to-clear register writes back the bits it just read, so latched
bits that read as 1 are cleared even when the closure only sets one bit.
Unbounded poll loops take fuel and return `none` on exhaustion.
`sendCount` is ghost instrumentation counting `send_byte` invocations;
`dLog` records every value written to the data register D. -/

/-- The `I2cError` enum from src/i2c.rs. -/
inductive I2cError : Type
  | OVERRUN
  | NACK
  | TIMEOUT
  | BUS
  | CRC
  | ARBITRATION
deriving Repr, DecidableEq

/-- Value of the I2C status register S. -/
structure SReg where
  tcf : Bool
  busy : Bool
  rxak : Bool
  arbl : Bool
  iicif : Bool
deriving Repr, DecidableEq

/-- Value of the I2C FLT register (glitch filter / start-stop flags). -/
structure FltReg where
  startf : Bool
  stopf : Bool
deriving Repr, DecidableEq

/-- Value of the I2C control register C1 (the fields the driver touches). -/
structure C1Reg where
  iicen : Bool
  mst : Bool
  tx : Bool
  txak : Bool
deriving Repr, DecidableEq

/-- One hardware event, observed at a read of S: new values for the level
bits and set-requests for the latched bits. -/
structure HwEvent where
  tcf : Bool
  busy : Bool
  rxak : Bool
  setArbl : Bool
  setIicif : Bool
  setStartf : Bool
  setStopf : Bool
deriving Repr, DecidableEq

/-- Full model state: the peripheral's registers, the observation logs and
the pending hardware trace. -/
structure I2cState where
  s : SReg
  flt : FltReg
  c1 : C1Reg
  d : Nat
  dLog : List Nat
  sendCount : Nat
  trace : List HwEvent
deriving Repr, DecidableEq

/-- Apply the next pending hardware event (if any) to the latches, giving
the value returned by a read of S together with the successor state. -/
def applyEvent (st : I2cState) : List HwEvent → SReg × I2cState
  | [] => (st.s, st)
  | e :: rest =>
    let s' : SReg :=
      { tcf := e.tcf, busy := e.busy, rxak := e.rxak,
        arbl := st.s.arbl || e.setArbl,
        iicif := st.s.iicif || e.setIicif }
    let flt' : FltReg :=
      { startf := st.flt.startf || e.setStartf,
        stopf := st.flt.stopf || e.setStopf }
    (s', { st with s := s', flt := flt', trace := rest })

/-- `self.i2c.s.read()`: consume one hardware event and return the S value. -/
def readS (st : I2cState) : SReg × I2cState :=
  applyEvent st st.trace

/-- `self.i2c.s.modify(|_, w| f(w))`: read S (consuming an event), then
write back the read value transformed by `f`; the write clears each
write-1-to-clear bit (ARBL, IICIF) whose written value is 1. -/
def sModify (f : SReg → SReg) (st : I2cState) : I2cState :=
  let p := readS st
  let r := p.1
  let v := f r
  { p.2 with s := { r with arbl := r.arbl && !v.arbl, iicif := r.iicif && !v.iicif } }

/-- `self.i2c.flt.modify(|_, w| f(w))`: read FLT, write back the read value
transformed by `f`; the write clears each write-1-to-clear bit (STARTF,
STOPF) whose written value is 1. -/
def fltModify (f : FltReg → FltReg) (st : I2cState) : I2cState :=
  let r := st.flt
  let v := f r
  { st with flt := { startf := r.startf && !v.startf, stopf := r.stopf && !v.stopf } }

/-- `self.i2c.c1.modify(|_, w| f(w))`: C1 is an ordinary read-write control
register owned by the driver. -/
def c1Modify (f : C1Reg → C1Reg) (st : I2cState) : I2cState :=
  { st with c1 := f st.c1 }

/-- A write of `b` to the data register D (from `self.i2c.d.modify`);
the register holds one byte and every written value is logged. -/
def dWrite (b : Nat) (st : I2cState) : I2cState :=
  { st with d := b % 256, dLog := st.dLog ++ [b % 256] }

/-- `fn check_and_clear_error_flags(&self) -> Result<i2c0::s::R, I2cError>`:
read S and FLT; ARBL set: write 1 to ARBL and return `ARBITRATION`;
else RXAK set: return `NACK`; else clear STARTF / STOPF if latched and
return the S value read. -/
def check_and_clear_error_flags (st : I2cState) : Except I2cError SReg × I2cState :=
  if (readS st).1.arbl then
    (Except.error I2cError.ARBITRATION,
      sModify (fun r => { r with arbl := true }) (readS st).2)
  else if (readS st).1.rxak then
    (Except.error I2cError.NACK, (readS st).2)
  else
    (Except.ok (readS st).1,
      (if ((readS st).2).flt.stopf then fltModify (fun f => { f with stopf := true }) else id)
        ((if ((readS st).2).flt.startf then fltModify (fun f => { f with startf := true }) else id)
          ((readS st).2)))

/-- The poll loop `while { self.i2c.s.read().tcf().bit_is_clear() }{}` in
`start_sequence`. -/
def waitTcf : Nat → I2cState → Option I2cState
  | 0, _ => none
  | fuel + 1, st =>
    let p := readS st
    if p.1.tcf then some p.2 else waitTcf fuel p.2

/-- The poll loop `while { self.i2c.s.read().iicif().bit_is_clear() }{}` in
`write_bytes`. -/
def waitIicif : Nat → I2cState → Option I2cState
  | 0, _ => none
  | fuel + 1, st =>
    let p := readS st
    if p.1.iicif then some p.2 else waitIicif fuel p.2

/-- `fn start_sequence(&self, address: u8)`: check flags, poll TCF, check
flags again, set MST and TX in C1, then write `(address << 1) | 0` (the
7-bit address shifted left, low bit clear) to D. -/
def start_sequence (address : Nat) (fuel : Nat) (st : I2cState) :
    Option (Except I2cError Unit × I2cState) :=
  match check_and_clear_error_flags st with
  | (Except.error e, st) => some (Except.error e, st)
  | (Except.ok _, st) =>
    match waitTcf fuel st with
    | none => none
    | some st =>
      match check_and_clear_error_flags st with
      | (Except.error e, st) => some (Except.error e, st)
      | (Except.ok _, st) =>
        let st := c1Modify (fun c => { c with mst := true, tx := true }) st
        let st := dWrite ((address * 2) % 256) st
        some (Except.ok (), st)

/-- The poll loop `while { self.check_and_clear_error_flags()?.busy().bit_is_set() }{}`
in `stop_sequence`. -/
def stopLoop : Nat → I2cState → Option (Except I2cError Unit × I2cState)
  | 0, _ => none
  | fuel + 1, st =>
    match check_and_clear_error_flags st with
    | (Except.error e, st) => some (Except.error e, st)
    | (Except.ok r, st) =>
      if r.busy then stopLoop fuel st else some (Except.ok (), st)

/-- `fn stop_sequence(&self)`: check flags, clear MST, TX and TXAK in C1,
then poll until BUSY clears, re-checking error flags on every iteration. -/
def stop_sequence (fuel : Nat) (st : I2cState) :
    Option (Except I2cError Unit × I2cState) :=
  match check_and_clear_error_flags st with
  | (Except.error e, st) => some (Except.error e, st)
  | (Except.ok _, st) =>
    let st := c1Modify (fun c => { c with mst := false, tx := false, txak := false }) st
    stopLoop fuel st

/-- The first poll loop of `send_byte`: a bare read of S (value unused)
followed by `check_and_clear_error_flags()?`, looping while TCF is clear. -/
def sendTcfLoop : Nat → I2cState → Option (Except I2cError Unit × I2cState)
  | 0, _ => none
  | fuel + 1, st =>
    let p := readS st
    match check_and_clear_error_flags p.2 with
    | (Except.error e, st) => some (Except.error e, st)
    | (Except.ok r, st) =>
      if r.tcf then some (Except.ok (), st) else sendTcfLoop fuel st

/-- The second poll loop of `send_byte`:
`while { self.check_and_clear_error_flags()?.iicif().bit_is_clear() }{}`. -/
def sendIicifLoop : Nat → I2cState → Option (Except I2cError Unit × I2cState)
  | 0, _ => none
  | fuel + 1, st =>
    match check_and_clear_error_flags st with
    | (Except.error e, st) => some (Except.error e, st)
    | (Except.ok r, st) =>
      if r.iicif then some (Except.ok (), st) else sendIicifLoop fuel st

/-- `fn send_byte(&self, byte: u8)`: poll TCF with error checks, write 1 to
IICIF, set TX, a bare read of S, write the byte to D, another bare read,
poll IICIF with error checks, write 1 to IICIF again.  The entry increments
the ghost `sendCount`. -/
def send_byte (byte : Nat) (fuel : Nat) (st : I2cState) :
    Option (Except I2cError Unit × I2cState) :=
  let st := { st with sendCount := st.sendCount + 1 }
  match sendTcfLoop fuel st with
  | none => none
  | some (Except.error e, st) => some (Except.error e, st)
  | some (Except.ok _, st) =>
    let st := sModify (fun r => { r with iicif := true }) st
    let st := c1Modify (fun c => { c with tx := true }) st
    let st := (readS st).2
    let st := dWrite byte st
    let st := (readS st).2
    match sendIicifLoop fuel st with
    | none => none
    | some (Except.error e, st) => some (Except.error e, st)
    | some (Except.ok _, st) =>
      some (Except.ok (), sModify (fun r => { r with iicif := true }) st)

/-- The payload loop `for b in bytes { self.send_byte(*b); }` of
`write_bytes`: each `send_byte` result is discarded by the source. -/
def sendAll : List Nat → Nat → I2cState → Option I2cState
  | [], _, st => some st
  | b :: bs, fuel, st =>
    match send_byte b fuel st with
    | none => none
    | some (_, st) => sendAll bs fuel st

/-- `fn write_bytes(&self, address: u8, bytes: &[u8])`: the result of
`start_sequence` is discarded; then the flags are checked (on error a
discarded `stop_sequence` runs and the error is returned); then IICIF is
polled with bare reads; then every byte is sent with the `send_byte`
result discarded; finally `Ok(())`. -/
def write_bytes (address : Nat) (bytes : List Nat) (fuel : Nat) (st : I2cState) :
    Option (Except I2cError Unit × I2cState) :=
  match start_sequence address fuel st with
  | none => none
  | some (_, st) =>
    match check_and_clear_error_flags st with
    | (Except.error e, st) =>
      match stop_sequence fuel st with
      | none => none
      | some (_, st) => some (Except.error e, st)
    | (Except.ok _, st) =>
      match waitIicif fuel st with
      | none => none
      | some st =>
        match sendAll bytes fuel st with
        | none => none
        | some st => some (Except.ok (), st)

/-- `fn recv_byte(&self)`: `Ok(0)` — no register is read or written. -/
def recv_byte (st : I2cState) : Except I2cError Nat × I2cState :=
  (Except.ok 0, st)

/-- `fn write(&mut self, address: u8, bytes: &[u8])` (the `embedded_hal`
`Write` impl): `self.write_bytes(address, bytes)?; self.stop_sequence()`. -/
def i2c_write (address : Nat) (bytes : List Nat) (fuel : Nat) (st : I2cState) :
    Option (Except I2cError Unit × I2cState) :=
  match write_bytes address bytes fuel st with
  | none => none
  | some (Except.error e, st) => some (Except.error e, st)
  | some (Except.ok _, st) => stop_sequence fuel st

/-! ## Concrete states and hardware traces used in the theorems below -/

/-- A benign hardware event: transfer complete, bus idle, acknowledged,
byte-transfer interrupt raised. -/
def eG : HwEvent :=
  { tcf := true, busy := false, rxak := false,
    setArbl := false, setIicif := true, setStartf := false, setStopf := false }

/-- An event whose status read shows the not-acknowledged (RXAK) flag. -/
def eN : HwEvent := { eG with rxak := true }

/-- An event that raises the latched arbitration-lost flag. -/
def eA : HwEvent := { eG with setArbl := true }

/-- Quiescent ready bus: transfer complete, idle, acknowledged, interrupt
flag latched, no pending events. -/
def st6 : I2cState :=
  { s := ⟨true, false, false, false, true⟩, flt := ⟨false, false⟩,
    c1 := ⟨false, false, false, false⟩, d := 0, dLog := [], sendCount := 0,
    trace := [] }

/-- The state `start_sequence 80 4 st6` computes to. -/
def st6' : I2cState :=
  { s := ⟨true, false, false, false, true⟩, flt := ⟨false, false⟩,
    c1 := ⟨false, true, true, false⟩, d := 160, dLog := [160], sendCount := 0,
    trace := [] }

/-- Same quiescent ready bus, used for the empty-payload write run. -/
def st7 : I2cState :=
  { s := ⟨true, false, false, false, true⟩, flt := ⟨false, false⟩,
    c1 := ⟨false, false, false, false⟩, d := 0, dLog := [], sendCount := 0,
    trace := [] }

/-- The state `i2c_write 80 [] 4 st7` computes to. -/
def st7' : I2cState :=
  { s := ⟨true, false, false, false, true⟩, flt := ⟨false, false⟩,
    c1 := ⟨false, false, false, false⟩, d := 160, dLog := [160], sendCount := 0,
    trace := [] }

/-- A state whose arbitration-lost latch is set when the check reads it. -/
def stA : I2cState :=
  { s := ⟨true, false, false, true, true⟩, flt := ⟨false, false⟩,
    c1 := ⟨false, false, false, false⟩, d := 0, dLog := [], sendCount := 0,
    trace := [] }

/-- A state whose status read shows arbitration-lost and not-acknowledged
at the same time. -/
def stB : I2cState :=
  { s := ⟨true, false, true, true, false⟩, flt := ⟨false, false⟩,
    c1 := ⟨false, false, false, false⟩, d := 0, dLog := [], sendCount := 0,
    trace := [] }

/-- A trace that raises arbitration loss at the fourth status read (the
check inside `write_bytes`, right after the start phase). -/
def stW5 : I2cState :=
  { s := ⟨false, false, false, false, false⟩, flt := ⟨false, false⟩,
    c1 := ⟨false, false, false, false⟩, d := 0, dLog := [], sendCount := 0,
    trace := [eG, eG, eG, eA] }

/-- The state `i2c_write 80 [] 4 stW5` computes to (result `ARBITRATION`). -/
def stW5' : I2cState :=
  { s := ⟨true, false, false, false, false⟩, flt := ⟨false, false⟩,
    c1 := ⟨false, false, false, false⟩, d := 160, dLog := [160], sendCount := 0,
    trace := [] }

/-- A trace that raises the not-acknowledged flag at the fourth status read. -/
def stN0 : I2cState :=
  { s := ⟨false, false, false, false, false⟩, flt := ⟨false, false⟩,
    c1 := ⟨false, false, false, false⟩, d := 0, dLog := [], sendCount := 0,
    trace := [eG, eG, eG, eN] }

/-- The state `i2c_write 80 [] 4 stN0` computes to (result `NACK`). -/
def stN' : I2cState :=
  { s := ⟨true, false, true, false, true⟩, flt := ⟨false, false⟩,
    c1 := ⟨false, true, true, false⟩, d := 160, dLog := [160], sendCount := 0,
    trace := [] }

/-- A run of a two-byte payload write in which the eleventh status read
(the completion poll while sending the first payload byte) shows the
not-acknowledged flag; every other read is benign. -/
def st1 : I2cState :=
  { s := ⟨false, false, false, false, false⟩, flt := ⟨false, false⟩,
    c1 := ⟨false, false, false, false⟩, d := 0, dLog := [], sendCount := 0,
    trace := [eG, eG, eG, eG, eG, eG, eG, eG, eG, eG, eN,
              eG, eG, eG, eG, eG, eG, eG, eG, eG] }

/-- The state of the `st1` run after the start phase. -/
def stAfterStart : I2cState :=
  ((start_sequence 80 4 st1).map (fun p => p.2)).getD st1

/-- The state of the `st1` run at entry to the payload loop (after the
post-start flag check and the IICIF wait). -/
def stMid : I2cState :=
  (waitIicif 4 (check_and_clear_error_flags stAfterStart).2).getD stAfterStart

/-! ## Helper lemmas about the I2C embedding -/

theorem applyEvent_c1 (st : I2cState) (l : List HwEvent) :
    ((applyEvent st l).2).c1 = st.c1 := by
  cases l <;> rfl

theorem applyEvent_dLog (st : I2cState) (l : List HwEvent) :
    ((applyEvent st l).2).dLog = st.dLog := by
  cases l <;> rfl

theorem applyEvent_sendCount (st : I2cState) (l : List HwEvent) :
    ((applyEvent st l).2).sendCount = st.sendCount := by
  cases l <;> rfl

theorem applyEvent_s_eq (st : I2cState) (l : List HwEvent) :
    ((applyEvent st l).2).s = (applyEvent st l).1 := by
  cases l <;> rfl

theorem readS_c1 (st : I2cState) : ((readS st).2).c1 = st.c1 :=
  applyEvent_c1 st st.trace

theorem readS_dLog (st : I2cState) : ((readS st).2).dLog = st.dLog :=
  applyEvent_dLog st st.trace

theorem readS_sendCount (st : I2cState) : ((readS st).2).sendCount = st.sendCount :=
  applyEvent_sendCount st st.trace

theorem readS_s_eq (st : I2cState) : ((readS st).2).s = (readS st).1 :=
  applyEvent_s_eq st st.trace

theorem sModify_c1 (f : SReg → SReg) (st : I2cState) :
    (sModify f st).c1 = st.c1 := by
  unfold sModify
  exact readS_c1 st

theorem sModify_dLog (f : SReg → SReg) (st : I2cState) :
    (sModify f st).dLog = st.dLog := by
  unfold sModify
  exact readS_dLog st

theorem sModify_sendCount (f : SReg → SReg) (st : I2cState) :
    (sModify f st).sendCount = st.sendCount := by
  unfold sModify
  exact readS_sendCount st

theorem sModify_arbl_set (st : I2cState) :
    (sModify (fun r => { r with arbl := true }) st).s.arbl = false := by
  unfold sModify
  simp

theorem sModify_iicif_arbl (st : I2cState) :
    (sModify (fun r => { r with iicif := true }) st).s.arbl = false := by
  unfold sModify
  simp

theorem fltModify_s (f : FltReg → FltReg) (st : I2cState) :
    (fltModify f st).s = st.s := rfl

theorem fltModify_c1 (f : FltReg → FltReg) (st : I2cState) :
    (fltModify f st).c1 = st.c1 := rfl

theorem fltModify_dLog (f : FltReg → FltReg) (st : I2cState) :
    (fltModify f st).dLog = st.dLog := rfl

theorem fltModify_sendCount (f : FltReg → FltReg) (st : I2cState) :
    (fltModify f st).sendCount = st.sendCount := rfl

theorem fltModify_trace (f : FltReg → FltReg) (st : I2cState) :
    (fltModify f st).trace = st.trace := rfl

/-- After any run of the status check the latched arbitration-lost bit is
clear: either it read as 0 (and the latch equals the read value), or the
check wrote 1 to it, which clears it. -/
theorem check_arbl (st : I2cState) :
    ((check_and_clear_error_flags st).2).s.arbl = false := by
  unfold check_and_clear_error_flags
  cases ha : (readS st).1.arbl with
  | true => simp [ha, sModify_arbl_set]
  | false =>
    cases hr : (readS st).1.rxak with
    | true => simp [ha, hr, readS_s_eq st]
    | false =>
      rw [if_neg (by simp), if_neg (by simp)]
      split <;> split <;> simp [fltModify_s, readS_s_eq st, ha]

theorem check_c1 (st : I2cState) :
    ((check_and_clear_error_flags st).2).c1 = st.c1 := by
  unfold check_and_clear_error_flags
  cases ha : (readS st).1.arbl with
  | true => simp [ha, sModify_c1, readS_c1 st]
  | false =>
    cases hr : (readS st).1.rxak with
    | true => simp [ha, hr, readS_c1 st]
    | false =>
      rw [if_neg (by simp), if_neg (by simp)]
      split <;> split <;> simp [fltModify_c1, readS_c1 st]

theorem check_dLog (st : I2cState) :
    ((check_and_clear_error_flags st).2).dLog = st.dLog := by
  unfold check_and_clear_error_flags
  cases ha : (readS st).1.arbl with
  | true => simp [ha, sModify_dLog, readS_dLog st]
  | false =>
    cases hr : (readS st).1.rxak with
    | true => simp [ha, hr, readS_dLog st]
    | false =>
      rw [if_neg (by simp), if_neg (by simp)]
      split <;> split <;> simp [fltModify_dLog, readS_dLog st]

theorem check_sendCount (st : I2cState) :
    ((check_and_clear_error_flags st).2).sendCount = st.sendCount := by
  unfold check_and_clear_error_flags
  cases ha : (readS st).1.arbl with
  | true => simp [ha, sModify_sendCount, readS_sendCount st]
  | false =>
    cases hr : (readS st).1.rxak with
    | true => simp [ha, hr, readS_sendCount st]
    | false =>
      rw [if_neg (by simp), if_neg (by simp)]
      split <;> split <;> simp [fltModify_sendCount, readS_sendCount st]

/-- The status check can only produce the `ARBITRATION` and `NACK` error
kinds. -/
theorem check_err_kind (st : I2cState) (e : I2cError)
    (h : (check_and_clear_error_flags st).1 = Except.error e) :
    e = I2cError.ARBITRATION ∨ e = I2cError.NACK := by
  unfold check_and_clear_error_flags at h
  cases ha : (readS st).1.arbl with
  | true =>
    simp [ha] at h
    exact Or.inl h.symm
  | false =>
    cases hr : (readS st).1.rxak with
    | true =>
      simp [ha, hr] at h
      exact Or.inr h.symm
    | false => simp [ha, hr] at h

/-- When the status read shows the arbitration-lost flag (in particular when
it shows arbitration-lost and not-acknowledged together), the check returns
`ARBITRATION`. -/
theorem check_arbl_priority (st : I2cState) (ha : (readS st).1.arbl = true) :
    (check_and_clear_error_flags st).1 = Except.error I2cError.ARBITRATION := by
  unfold check_and_clear_error_flags
  simp [ha]

/-- A hardware trace that raises neither arbitration loss nor a
not-acknowledge. -/
def EventsOk (l : List HwEvent) : Prop :=
  ∀ e ∈ l, e.setArbl = false ∧ e.rxak = false

/-- No-error invariant: the arbitration-lost latch is clear, the RXAK level
reads acknowledged, and no pending hardware event raises either flag. -/
def NoErr (st : I2cState) : Prop :=
  st.s.arbl = false ∧ st.s.rxak = false ∧ EventsOk st.trace

theorem readS_noerr (st : I2cState) (h : NoErr st) :
    (readS st).1.arbl = false ∧ (readS st).1.rxak = false ∧ NoErr (readS st).2 := by
  obtain ⟨h1, h2, h3⟩ := h
  unfold readS
  cases hl : st.trace with
  | nil => exact ⟨h1, h2, h1, h2, h3⟩
  | cons e rest =>
    have he : e.setArbl = false ∧ e.rxak = false :=
      h3 e (by rw [hl]; exact List.mem_cons_self e rest)
    have hrest : EventsOk rest := fun x hx =>
      h3 x (by rw [hl]; exact List.mem_cons_of_mem e hx)
    refine ⟨?_, ?_, ?_, ?_, ?_⟩
    · simp [applyEvent, h1, he.1]
    · simp [applyEvent, he.2]
    · simp [applyEvent, h1, he.1]
    · simp [applyEvent, he.2]
    · simpa [applyEvent] using hrest

theorem sModify_noerr (f : SReg → SReg) (st : I2cState) (h : NoErr st) :
    NoErr (sModify f st) := by
  obtain ⟨hra, hrr, hI⟩ := readS_noerr st h
  unfold sModify
  exact ⟨by simp [hra], hrr, hI.2.2⟩

theorem fltModify_noerr (f : FltReg → FltReg) (st : I2cState) (h : NoErr st) :
    NoErr (fltModify f st) :=
  h

theorem c1Modify_noerr (f : C1Reg → C1Reg) (st : I2cState) (h : NoErr st) :
    NoErr (c1Modify f st) :=
  h

theorem dWrite_noerr (b : Nat) (st : I2cState) (h : NoErr st) :
    NoErr (dWrite b st) :=
  h

/-- Under the no-error invariant the status check succeeds and preserves the
invariant. -/
theorem check_ok_noerr (st : I2cState) (h : NoErr st) :
    (check_and_clear_error_flags st).1 = Except.ok (readS st).1 ∧
    NoErr (check_and_clear_error_flags st).2 := by
  obtain ⟨hra, hrr, hI⟩ := readS_noerr st h
  unfold check_and_clear_error_flags
  rw [if_neg (by simp [hra]), if_neg (by simp [hrr])]
  refine ⟨rfl, ?_⟩
  split <;> split <;> exact hI

theorem waitTcf_frame (fuel : Nat) (st st' : I2cState) (h : waitTcf fuel st = some st') :
    st'.c1 = st.c1 ∧ st'.dLog = st.dLog ∧ st'.sendCount = st.sendCount := by
  induction fuel generalizing st with
  | zero => simp [waitTcf] at h
  | succ n ih =>
    simp only [waitTcf] at h
    cases ht : (readS st).1.tcf
    · rw [ht] at h
      simp only [Bool.false_eq_true, if_false] at h
      obtain ⟨h1, h2, h3⟩ := ih (readS st).2 h
      exact ⟨h1.trans (readS_c1 st), h2.trans (readS_dLog st),
        h3.trans (readS_sendCount st)⟩
    · rw [ht] at h
      simp only [if_true, Option.some.injEq] at h
      subst h
      exact ⟨readS_c1 st, readS_dLog st, readS_sendCount st⟩

theorem waitTcf_exit (fuel : Nat) (st st' : I2cState) (h : waitTcf fuel st = some st') :
    st'.s.tcf = true := by
  induction fuel generalizing st with
  | zero => simp [waitTcf] at h
  | succ n ih =>
    simp only [waitTcf] at h
    cases ht : (readS st).1.tcf
    · rw [ht] at h
      simp only [Bool.false_eq_true, if_false] at h
      exact ih (readS st).2 h
    · rw [ht] at h
      simp only [if_true, Option.some.injEq] at h
      subst h
      rw [readS_s_eq st]
      exact ht

theorem waitTcf_noerr (fuel : Nat) (st st' : I2cState) (h : waitTcf fuel st = some st')
    (hn : NoErr st) : NoErr st' := by
  induction fuel generalizing st with
  | zero => simp [waitTcf] at h
  | succ n ih =>
    simp only [waitTcf] at h
    cases ht : (readS st).1.tcf
    · rw [ht] at h
      simp only [Bool.false_eq_true, if_false] at h
      exact ih (readS st).2 h (readS_noerr st hn).2.2
    · rw [ht] at h
      simp only [if_true, Option.some.injEq] at h
      subst h
      exact (readS_noerr st hn).2.2

theorem waitIicif_frame (fuel : Nat) (st st' : I2cState) (h : waitIicif fuel st = some st') :
    st'.c1 = st.c1 ∧ st'.dLog = st.dLog ∧ st'.sendCount = st.sendCount := by
  induction fuel generalizing st with
  | zero => simp [waitIicif] at h
  | succ n ih =>
    simp only [waitIicif] at h
    cases ht : (readS st).1.iicif
    · rw [ht] at h
      simp only [Bool.false_eq_true, if_false] at h
      obtain ⟨h1, h2, h3⟩ := ih (readS st).2 h
      exact ⟨h1.trans (readS_c1 st), h2.trans (readS_dLog st),
        h3.trans (readS_sendCount st)⟩
    · rw [ht] at h
      simp only [if_true, Option.some.injEq] at h
      subst h
      exact ⟨readS_c1 st, readS_dLog st, readS_sendCount st⟩

theorem waitIicif_noerr (fuel : Nat) (st st' : I2cState) (h : waitIicif fuel st = some st')
    (hn : NoErr st) : NoErr st' := by
  induction fuel generalizing st with
  | zero => simp [waitIicif] at h
  | succ n ih =>
    simp only [waitIicif] at h
    cases ht : (readS st).1.iicif
    · rw [ht] at h
      simp only [Bool.false_eq_true, if_false] at h
      exact ih (readS st).2 h (readS_noerr st hn).2.2
    · rw [ht] at h
      simp only [if_true, Option.some.injEq] at h
      subst h
      exact (readS_noerr st hn).2.2

/-- Every exit of the stop-phase busy loop happens right after a status
check, so the arbitration latch is clear and any error is a check error. -/
theorem stopLoop_cases (fuel : Nat) (st st' : I2cState) (r : Except I2cError Unit)
    (h : stopLoop fuel st = some (r, st')) :
    st'.s.arbl = false ∧
    ∀ e, r = Except.error e → e = I2cError.ARBITRATION ∨ e = I2cError.NACK := by
  induction fuel generalizing st with
  | zero => simp [stopLoop] at h
  | succ n ih =>
    simp only [stopLoop] at h
    split at h
    next e st₂ heq =>
      simp only [Option.some.injEq, Prod.mk.injEq] at h
      obtain ⟨h1, h2⟩ := h
      subst h2
      constructor
      · have ha := check_arbl st
        rw [heq] at ha
        exact ha
      · intro e' he'
        rw [← h1] at he'
        have hf : (check_and_clear_error_flags st).1 = Except.error e := by rw [heq]
        exact (Except.error.inj he') ▸ check_err_kind st e hf
    next r₂ st₂ heq =>
      split at h
      · exact ih st₂ h
      · simp only [Option.some.injEq, Prod.mk.injEq] at h
        obtain ⟨h1, h2⟩ := h
        subst h2
        constructor
        · have ha := check_arbl st
          rw [heq] at ha
          exact ha
        · intro e' he'
          rw [← h1] at he'
          exact absurd he' (by simp)

theorem sendTcfLoop_cases (fuel : Nat) (st st' : I2cState) (r : Except I2cError Unit)
    (h : sendTcfLoop fuel st = some (r, st')) :
    st'.s.arbl = false ∧
    ∀ e, r = Except.error e → e = I2cError.ARBITRATION ∨ e = I2cError.NACK := by
  induction fuel generalizing st with
  | zero => simp [sendTcfLoop] at h
  | succ n ih =>
    simp only [sendTcfLoop] at h
    split at h
    next e st₂ heq =>
      simp only [Option.some.injEq, Prod.mk.injEq] at h
      obtain ⟨h1, h2⟩ := h
      subst h2
      constructor
      · have ha := check_arbl (readS st).2
        rw [heq] at ha
        exact ha
      · intro e' he'
        rw [← h1] at he'
        have hf : (check_and_clear_error_flags (readS st).2).1 = Except.error e := by rw [heq]
        exact (Except.error.inj he') ▸ check_err_kind (readS st).2 e hf
    next r₂ st₂ heq =>
      split at h
      · simp only [Option.some.injEq, Prod.mk.injEq] at h
        obtain ⟨h1, h2⟩ := h
        subst h2
        constructor
        · have ha := check_arbl (readS st).2
          rw [heq] at ha
          exact ha
        · intro e' he'
          rw [← h1] at he'
          exact absurd he' (by simp)
      · exact ih st₂ h

theorem sendIicifLoop_cases (fuel : Nat) (st st' : I2cState) (r : Except I2cError Unit)
    (h : sendIicifLoop fuel st = some (r, st')) :
    st'.s.arbl = false ∧
    ∀ e, r = Except.error e → e = I2cError.ARBITRATION ∨ e = I2cError.NACK := by
  induction fuel generalizing st with
  | zero => simp [sendIicifLoop] at h
  | succ n ih =>
    simp only [sendIicifLoop] at h
    split at h
    next e st₂ heq =>
      simp only [Option.some.injEq, Prod.mk.injEq] at h
      obtain ⟨h1, h2⟩ := h
      subst h2
      constructor
      · have ha := check_arbl st
        rw [heq] at ha
        exact ha
      · intro e' he'
        rw [← h1] at he'
        have hf : (check_and_clear_error_flags st).1 = Except.error e := by rw [heq]
        exact (Except.error.inj he') ▸ check_err_kind st e hf
    next r₂ st₂ heq =>
      split at h
      · simp only [Option.some.injEq, Prod.mk.injEq] at h
        obtain ⟨h1, h2⟩ := h
        subst h2
        constructor
        · have ha := check_arbl st
          rw [heq] at ha
          exact ha
        · intro e' he'
          rw [← h1] at he'
          exact absurd he' (by simp)
      · exact ih st₂ h

/-- Any terminating start phase leaves the arbitration latch clear; its
errors come from the status checks; on success it has set the MST and TX
control bits and appended the shifted address byte to the data-write log. -/
theorem start_sequence_cases (a fuel : Nat) (st st' : I2cState) (r : Except I2cError Unit)
    (h : start_sequence a fuel st = some (r, st')) :
    st'.s.arbl = false ∧
    (∀ e, r = Except.error e → e = I2cError.ARBITRATION ∨ e = I2cError.NACK) ∧
    (r = Except.ok () →
      st'.c1.mst = true ∧ st'.c1.tx = true ∧
      st'.dLog = st.dLog ++ [a * 2 % 256] ∧ st'.sendCount = st.sendCount) := by
  unfold start_sequence at h
  split at h
  next e st₂ heq₁ =>
    simp only [Option.some.injEq, Prod.mk.injEq] at h
    obtain ⟨h1, h2⟩ := h
    subst h2
    refine ⟨by have ha := check_arbl st; rwa [heq₁] at ha, ?_, ?_⟩
    · intro e' he'
      rw [← h1] at he'
      exact (Except.error.inj he') ▸ check_err_kind st e (by rw [heq₁])
    · intro hok
      rw [← h1] at hok
      exact absurd hok (by simp)
  next r₀ st₂ heq₁ =>
    split at h
    next hw => exact absurd h (by simp)
    next st₃ hw =>
      split at h
      next e st₄ heq₂ =>
        simp only [Option.some.injEq, Prod.mk.injEq] at h
        obtain ⟨h1, h2⟩ := h
        subst h2
        refine ⟨by have ha := check_arbl st₃; rwa [heq₂] at ha, ?_, ?_⟩
        · intro e' he'
          rw [← h1] at he'
          exact (Except.error.inj he') ▸ check_err_kind st₃ e (by rw [heq₂])
        · intro hok
          rw [← h1] at hok
          exact absurd hok (by simp)
      next r₁ st₄ heq₂ =>
        simp only [Option.some.injEq, Prod.mk.injEq] at h
        obtain ⟨h1, h2⟩ := h
        subst h2
        have hd₄ : st₄.dLog = st₃.dLog := by
          have hd := check_dLog st₃; rwa [heq₂] at hd
        have hd₃ : st₃.dLog = st₂.dLog := (waitTcf_frame fuel st₂ st₃ hw).2.1
        have hd₂ : st₂.dLog = st.dLog := by
          have hd := check_dLog st; rwa [heq₁] at hd
        have hs₄ : st₄.sendCount = st₃.sendCount := by
          have hs := check_sendCount st₃; rwa [heq₂] at hs
        have hs₃ : st₃.sendCount = st₂.sendCount := (waitTcf_frame fuel st₂ st₃ hw).2.2
        have hs₂ : st₂.sendCount = st.sendCount := by
          have hs := check_sendCount st; rwa [heq₁] at hs
        refine ⟨by have ha := check_arbl st₃; rwa [heq₂] at ha, ?_, ?_⟩
        · intro e' he'
          rw [← h1] at he'
          exact absurd he' (by simp)
        · intro _
          refine ⟨rfl, rfl, ?_, ?_⟩
          · show st₄.dLog ++ [a * 2 % 256 % 256] = st.dLog ++ [a * 2 % 256]
            rw [hd₄, hd₃, hd₂, Nat.mod_mod_of_dvd _ (dvd_refl 256)]
          · show st₄.sendCount = st.sendCount
            rw [hs₄, hs₃, hs₂]

/-- Any terminating `send_byte` leaves the arbitration latch clear (its last
status-register access is either a check or the write-1-to-clear IICIF
`modify`, whose read-back also clears a latched ARBL) and its errors come
from the status checks. -/
theorem send_byte_cases (b fuel : Nat) (st st' : I2cState) (r : Except I2cError Unit)
    (h : send_byte b fuel st = some (r, st')) :
    st'.s.arbl = false ∧
    ∀ e, r = Except.error e → e = I2cError.ARBITRATION ∨ e = I2cError.NACK := by
  simp only [send_byte] at h
  split at h
  next hw => exact absurd h (by simp)
  next e st₂ heq₁ =>
    simp only [Option.some.injEq, Prod.mk.injEq] at h
    obtain ⟨h1, h2⟩ := h
    subst h2
    obtain ⟨ha, hk⟩ := sendTcfLoop_cases fuel _ st₂ (Except.error e) heq₁
    refine ⟨ha, ?_⟩
    intro e' he'
    rw [← h1] at he'
    exact (Except.error.inj he') ▸ hk e rfl
  next u st₂ heq₁ =>
    split at h
    next hw => exact absurd h (by simp)
    next e st₃ heq₂ =>
      simp only [Option.some.injEq, Prod.mk.injEq] at h
      obtain ⟨h1, h2⟩ := h
      subst h2
      obtain ⟨ha, hk⟩ := sendIicifLoop_cases fuel _ st₃ (Except.error e) heq₂
      refine ⟨ha, ?_⟩
      intro e' he'
      rw [← h1] at he'
      exact (Except.error.inj he') ▸ hk e rfl
    next u₂ st₃ heq₂ =>
      simp only [Option.some.injEq, Prod.mk.injEq] at h
      obtain ⟨h1, h2⟩ := h
      subst h2
      refine ⟨sModify_iicif_arbl st₃, ?_⟩
      intro e' he'
      rw [← h1] at he'
      exact absurd he' (by simp)

/-- Any terminating stop phase leaves the arbitration latch clear and its
errors come from the status checks. -/
theorem stop_sequence_cases (fuel : Nat) (st st' : I2cState) (r : Except I2cError Unit)
    (h : stop_sequence fuel st = some (r, st')) :
    st'.s.arbl = false ∧
    ∀ e, r = Except.error e → e = I2cError.ARBITRATION ∨ e = I2cError.NACK := by
  unfold stop_sequence at h
  split at h
  next e st₂ heq =>
    simp only [Option.some.injEq, Prod.mk.injEq] at h
    obtain ⟨h1, h2⟩ := h
    subst h2
    refine ⟨by have ha := check_arbl st; rwa [heq] at ha, ?_⟩
    intro e' he'
    rw [← h1] at he'
    exact (Except.error.inj he') ▸ check_err_kind st e (by rw [heq])
  next r₀ st₂ heq =>
    exact stopLoop_cases fuel _ st' r h

/-- Any error returned by `write_bytes` is a status-check error and, because
the error path runs the stop phase before returning, leaves the arbitration
latch clear. -/
theorem write_bytes_err (a : Nat) (bs : List Nat) (fuel : Nat) (st st' : I2cState)
    (r : Except I2cError Unit) (h : write_bytes a bs fuel st = some (r, st')) :
    ∀ e, r = Except.error e →
      (e = I2cError.ARBITRATION ∨ e = I2cError.NACK) ∧ st'.s.arbl = false := by
  unfold write_bytes at h
  split at h
  next hs => exact absurd h (by simp)
  next r₁ st₂ hs =>
    split at h
    next e st₃ heq =>
      split at h
      next hp => exact absurd h (by simp)
      next r₂ st₄ hp =>
        simp only [Option.some.injEq, Prod.mk.injEq] at h
        obtain ⟨h1, h2⟩ := h
        subst h2
        intro e' he'
        rw [← h1] at he'
        refine ⟨(Except.error.inj he') ▸ check_err_kind st₂ e (by rw [heq]), ?_⟩
        exact (stop_sequence_cases fuel st₃ st₄ r₂ hp).1
    next r₀ st₃ heq =>
      split at h
      next hw => exact absurd h (by simp)
      next st₄ hw =>
        split at h
        next hp => exact absurd h (by simp)
        next st₅ hp =>
          simp only [Option.some.injEq, Prod.mk.injEq] at h
          obtain ⟨h1, h2⟩ := h
          subst h2
          intro e' he'
          rw [← h1] at he'
          exact absurd he' (by simp)

/-- Any terminating top-level write leaves the arbitration latch clear and
its errors come from the status checks. -/
theorem i2c_write_cases (a : Nat) (bs : List Nat) (fuel : Nat) (st st' : I2cState)
    (r : Except I2cError Unit) (h : i2c_write a bs fuel st = some (r, st')) :
    st'.s.arbl = false ∧
    ∀ e, r = Except.error e → e = I2cError.ARBITRATION ∨ e = I2cError.NACK := by
  unfold i2c_write at h
  split at h
  next hw => exact absurd h (by simp)
  next e st₂ hw =>
    simp only [Option.some.injEq, Prod.mk.injEq] at h
    obtain ⟨h1, h2⟩ := h
    subst h2
    have hwb := write_bytes_err a bs fuel st st₂ (Except.error e) hw e rfl
    refine ⟨hwb.2, ?_⟩
    intro e' he'
    rw [← h1] at he'
    exact (Except.error.inj he') ▸ hwb.1
  next u st₂ hw =>
    exact stop_sequence_cases fuel st₂ st' r h

/-- Under the no-error invariant the stop-phase busy loop finishes with
`Ok(())`, keeps the invariant, and touches neither the data-write log nor
the send counter. -/
theorem stopLoop_ok_noerr (fuel : Nat) (st st' : I2cState) (r : Except I2cError Unit)
    (hn : NoErr st) (h : stopLoop fuel st = some (r, st')) :
    r = Except.ok () ∧ NoErr st' ∧ st'.dLog = st.dLog ∧ st'.sendCount = st.sendCount := by
  induction fuel generalizing st with
  | zero => simp [stopLoop] at h
  | succ n ih =>
    simp only [stopLoop] at h
    split at h
    next e st₂ heq =>
      have hok := (check_ok_noerr st hn).1
      rw [heq] at hok
      exact absurd hok (by simp)
    next r₂ st₂ heq =>
      have hn₂ : NoErr st₂ := by
        have hi := (check_ok_noerr st hn).2
        rwa [heq] at hi
      have hd : st₂.dLog = st.dLog := by
        have hd := check_dLog st; rwa [heq] at hd
      have hs : st₂.sendCount = st.sendCount := by
        have hs := check_sendCount st; rwa [heq] at hs
      split at h
      · obtain ⟨h1, h2, h3, h4⟩ := ih st₂ hn₂ h
        exact ⟨h1, h2, h3.trans hd, h4.trans hs⟩
      · simp only [Option.some.injEq, Prod.mk.injEq] at h
        obtain ⟨h1, h2⟩ := h
        subst h2
        exact ⟨h1.symm, hn₂, hd, hs⟩

theorem stop_sequence_ok_noerr (fuel : Nat) (st st' : I2cState) (r : Except I2cError Unit)
    (hn : NoErr st) (h : stop_sequence fuel st = some (r, st')) :
    r = Except.ok () ∧ NoErr st' ∧ st'.dLog = st.dLog ∧ st'.sendCount = st.sendCount := by
  unfold stop_sequence at h
  split at h
  next e st₂ heq =>
    have hok := (check_ok_noerr st hn).1
    rw [heq] at hok
    exact absurd hok (by simp)
  next r₀ st₂ heq =>
    have hn₂ : NoErr st₂ := by
      have hi := (check_ok_noerr st hn).2
      rwa [heq] at hi
    have hd : st₂.dLog = st.dLog := by
      have hd := check_dLog st; rwa [heq] at hd
    have hs : st₂.sendCount = st.sendCount := by
      have hs := check_sendCount st; rwa [heq] at hs
    obtain ⟨h1, h2, h3, h4⟩ := stopLoop_ok_noerr fuel (c1Modify _ st₂) st' r hn₂ h
    exact ⟨h1, h2, h3.trans hd, h4.trans hs⟩

theorem start_sequence_ok_noerr (a fuel : Nat) (st st' : I2cState) (r : Except I2cError Unit)
    (hn : NoErr st) (h : start_sequence a fuel st = some (r, st')) :
    r = Except.ok () ∧ NoErr st' := by
  unfold start_sequence at h
  split at h
  next e st₂ heq =>
    have hok := (check_ok_noerr st hn).1
    rw [heq] at hok
    exact absurd hok (by simp)
  next r₀ st₂ heq₁ =>
    have hn₂ : NoErr st₂ := by
      have hi := (check_ok_noerr st hn).2
      rwa [heq₁] at hi
    split at h
    next hw => exact absurd h (by simp)
    next st₃ hw =>
      have hn₃ : NoErr st₃ := waitTcf_noerr fuel st₂ st₃ hw hn₂
      split at h
      next e st₄ heq₂ =>
        have hok := (check_ok_noerr st₃ hn₃).1
        rw [heq₂] at hok
        exact absurd hok (by simp)
      next r₁ st₄ heq₂ =>
        have hn₄ : NoErr st₄ := by
          have hi := (check_ok_noerr st₃ hn₃).2
          rwa [heq₂] at hi
        simp only [Option.some.injEq, Prod.mk.injEq] at h
        obtain ⟨h1, h2⟩ := h
        subst h2
        exact ⟨h1.symm, hn₄⟩

/-- Under the no-error invariant, a `write_bytes` with an empty payload
succeeds, writes exactly the shifted address byte, and never invokes
`send_byte`. -/
theorem write_bytes_nil_ok (a fuel : Nat) (st st' : I2cState) (r : Except I2cError Unit)
    (hn : NoErr st) (h : write_bytes a [] fuel st = some (r, st')) :
    r = Except.ok () ∧ NoErr st' ∧
    st'.dLog = st.dLog ++ [a * 2 % 256] ∧ st'.sendCount = st.sendCount := by
  unfold write_bytes at h
  split at h
  next hs => exact absurd h (by simp)
  next r₁ st₂ hs =>
    have hok₁ := start_sequence_ok_noerr a fuel st st₂ r₁ hn hs
    have heff := (start_sequence_cases a fuel st st₂ r₁ hs).2.2 hok₁.1
    have hn₂ : NoErr st₂ := hok₁.2
    split at h
    next e st₃ heq =>
      have hok := (check_ok_noerr st₂ hn₂).1
      rw [heq] at hok
      exact absurd hok (by simp)
    next r₀ st₃ heq =>
      have hn₃ : NoErr st₃ := by
        have hi := (check_ok_noerr st₂ hn₂).2
        rwa [heq] at hi
      have hd₃ : st₃.dLog = st₂.dLog := by
        have hd := check_dLog st₂; rwa [heq] at hd
      have hc₃ : st₃.sendCount = st₂.sendCount := by
        have hc := check_sendCount st₂; rwa [heq] at hc
      split at h
      next hw => exact absurd h (by simp)
      next st₄ hw =>
        have hfr := waitIicif_frame fuel st₃ st₄ hw
        simp only [sendAll, Option.some.injEq, Prod.mk.injEq] at h
        obtain ⟨h1, h2⟩ := h
        subst h2
        refine ⟨h1.symm, waitIicif_noerr fuel st₃ st₄ hw hn₃, ?_, ?_⟩
        · rw [hfr.2.1, hd₃, heff.2.2.1]
        · rw [hfr.2.2, hc₃, heff.2.2.2]

/-- Under the no-error invariant, a top-level write of an empty payload
succeeds, logs exactly the shifted address byte, and never invokes
`send_byte`. -/
theorem i2c_write_nil_ok (a fuel : Nat) (st st' : I2cState) (r : Except I2cError Unit)
    (hn : NoErr st) (h : i2c_write a [] fuel st = some (r, st')) :
    r = Except.ok () ∧ st'.dLog = st.dLog ++ [a * 2 % 256] ∧
    st'.sendCount = st.sendCount := by
  unfold i2c_write at h
  split at h
  next hw => exact absurd h (by simp)
  next e st₂ hw =>
    have hfalse := (write_bytes_nil_ok a fuel st st₂ (Except.error e) hn hw).1
    exact absurd hfalse (by simp)
  next u st₂ hw =>
    obtain ⟨h1, hn₂, hd₂, hs₂⟩ := write_bytes_nil_ok a fuel st st₂ (Except.ok u) hn hw
    obtain ⟨h2, _, hd₃, hs₃⟩ := stop_sequence_ok_noerr fuel st₂ st' r hn₂ h
    exact ⟨h2, hd₃.trans hd₂, hs₃.trans hs₂⟩

/-! ## GPIO claim theorems -/

/-- Claim C2 (code bug): `into_alternate_af5` does leave the MUX field at 5,
but `into_af5_outputdrain` overwrites the entire pin-control register with
`0x23` after having set MUX to 5, so the MUX field ends up 0, not 5 (the
open-drain bit, bit 5 of 0x23, is set); and `into_open_drain` performs no
register write at all, so it cannot leave the open-drain bit set.  Evaluated
at the concrete initial PCR value 0x700. -/
theorem c2_outputdrain_mux_clobbered :
    muxField (into_alternate_af5 0x700) = 5 ∧
    into_af5_outputdrain 0x700 = 0x23 ∧
    muxField (into_af5_outputdrain 0x700) = 0 ∧
    Nat.testBit (into_af5_outputdrain 0x700) 5 = true ∧
    into_open_drain 0x700 = 0x700 ∧
    Nat.testBit (into_open_drain 0x700) 5 = false := by
  decide

/-- Claim C3 (code bug): on a bank whose 32 bits are all outputs and where
bit 1 is driven high, `set_low` on bit 0 followed by `is_set_low` on bit 0
returns `false` (the source tests `(pdir >> pos) == 0`, which is sensitive
to every bit above `pos`), while the claim demands `true` regardless of the
other bits.  The `set_high` / `is_set_high` half does hold on this input. -/
theorem c3_set_low_readback_mismatch :
    PinOps.is_set_low (PinOps.set_low ⟨2, mask32, 0⟩ 0) 0 = Except.ok false ∧
    PinOps.is_set_high (PinOps.set_high ⟨2, mask32, 0⟩ 0) 0 = Except.ok true :=
  ⟨rfl, rfl⟩

/-- Claim C4 (code bug): on an all-input bank whose external level has bit 1
high and bit 0 low, bit 0 of the data-input register is 0, yet `is_low`
on pin 0 returns `false` (the source tests `(pdir >> pos) == 0` instead of
extracting bit `pos`).  `is_high` is the negation of `is_low` and both
always succeed, as the claim also states. -/
theorem c4_is_low_shift_semantics :
    (pdirValue ⟨0, 0, 2⟩).testBit 0 = false ∧
    PinOps.is_low ⟨0, 0, 2⟩ 0 = Except.ok false ∧
    PinOps.is_high ⟨0, 0, 2⟩ 0 = Except.ok true :=
  ⟨by decide, rfl, rfl⟩

/-- Claim C9 (confirmed): `into_output` on bit index `i` overwrites the whole
direction register with the single-bit mask `1 <<< i`: pin `i`'s direction
bit is set and every other pin's direction bit is cleared, whatever the
previous register value was. -/
theorem c9_into_output_direction_mask (i : Nat) (hi : i < 32) (b : GpioBank) :
    (into_output i b).pddr = 1 <<< i ∧
    (into_output i b).pddr.testBit i = true ∧
    ∀ j, j < 32 → j ≠ i → (into_output i b).pddr.testBit j = false := by
  have hpow : (1 : Nat) <<< i = 2 ^ i := by
    simp [Nat.shiftLeft_eq]
  have hlt : (2 : Nat) ^ i < 2 ^ 32 :=
    Nat.pow_lt_pow_right (by norm_num) hi
  have hval : (into_output i b).pddr = 1 <<< i := by
    simp only [into_output, hpow]
    exact Nat.mod_eq_of_lt hlt
  refine ⟨hval, ?_, ?_⟩
  · rw [hval, hpow]
    exact Nat.testBit_two_pow_self
  · intro j _ hj
    rw [hval, hpow]
    exact Nat.testBit_two_pow_of_ne (fun h => hj h.symm)

/-- Witness for C9 at the concrete bit index 3 on a bank with a nonzero
previous direction configuration. -/
theorem c9_into_output_direction_mask_witness :
    (3 < 32) ∧
    ((into_output 3 ⟨0, 0xFFF0, 0⟩).pddr = 1 <<< 3 ∧
     (into_output 3 ⟨0, 0xFFF0, 0⟩).pddr.testBit 3 = true ∧
     ∀ j, j < 32 → j ≠ 3 → (into_output 3 ⟨0, 0xFFF0, 0⟩).pddr.testBit j = false) :=
  ⟨by decide, c9_into_output_direction_mask 3 (by decide) ⟨0, 0xFFF0, 0⟩⟩


/-! ## I2C claim theorems -/

/-- Claim C1 (code bug): the spec says an error detected while sending a
payload byte aborts the remaining bytes and surfaces to the caller, but
`write_bytes` discards the `Result` of every `send_byte` (and of
`start_sequence`).  Concretely, on the `st1` run the not-acknowledged flag
is raised while byte 1 is being sent — `send_byte` from the payload-loop
entry state returns `NACK` — yet the top-level write still clocks out the
remaining byte 2 (the data log ends `[160, 1, 2]`) and returns `Ok(())`. -/
theorem c1_payload_error_discarded :
    (send_byte 1 4 stMid).map (fun p => p.1) = some (Except.error I2cError.NACK) ∧
    (i2c_write 80 [1, 2] 4 st1).map (fun p => (p.1, p.2.dLog)) =
      some (Except.ok (), [160, 1, 2]) :=
  ⟨rfl, rfl⟩

/-- Claim C5 (confirmed): whenever the status check returns `ARBITRATION`
the arbitration-lost latch has been cleared by its write-1-to-clear write,
and every bus operation that returns `ARBITRATION` leaves the latch clear. -/
theorem c5_arbitration_cleared :
    (∀ st, (check_and_clear_error_flags st).1 = Except.error I2cError.ARBITRATION →
      ((check_and_clear_error_flags st).2).s.arbl = false) ∧
    (∀ a fuel st st' r, start_sequence a fuel st = some (r, st') →
      r = Except.error I2cError.ARBITRATION → st'.s.arbl = false) ∧
    (∀ b fuel st st' r, send_byte b fuel st = some (r, st') →
      r = Except.error I2cError.ARBITRATION → st'.s.arbl = false) ∧
    (∀ fuel st st' r, stop_sequence fuel st = some (r, st') →
      r = Except.error I2cError.ARBITRATION → st'.s.arbl = false) ∧
    (∀ a bs fuel st st' r, write_bytes a bs fuel st = some (r, st') →
      r = Except.error I2cError.ARBITRATION → st'.s.arbl = false) ∧
    (∀ a bs fuel st st' r, i2c_write a bs fuel st = some (r, st') →
      r = Except.error I2cError.ARBITRATION → st'.s.arbl = false) :=
  ⟨fun st _ => check_arbl st,
   fun a fuel st st' r h _ => (start_sequence_cases a fuel st st' r h).1,
   fun b fuel st st' r h _ => (send_byte_cases b fuel st st' r h).1,
   fun fuel st st' r h _ => (stop_sequence_cases fuel st st' r h).1,
   fun a bs fuel st st' r h hr =>
     (write_bytes_err a bs fuel st st' r h I2cError.ARBITRATION hr).2,
   fun a bs fuel st st' r h _ => (i2c_write_cases a bs fuel st st' r h).1⟩

/-- Witness for C5: the check on a state with the arbitration latch set
returns `ARBITRATION` and leaves the latch clear, and a full bus write whose
fourth status read raises arbitration loss returns `ARBITRATION` with the
latch clear. -/
theorem c5_arbitration_cleared_witness :
    ((check_and_clear_error_flags stA).2).s.arbl = false ∧ stW5'.s.arbl = false :=
  ⟨c5_arbitration_cleared.1 stA rfl,
   c5_arbitration_cleared.2.2.2.2.2 80 [] 4 stW5 stW5'
     (Except.error I2cError.ARBITRATION) rfl rfl⟩

/-- Claim C6 (confirmed): the start phase polls until the transfer-complete
flag reads set; on success it has set the master-mode and transmit bits and
written the address shifted left one bit — an even byte, low bit clear —
to the data register; and it returns an error only when a status check
surfaces one (`ARBITRATION` or `NACK`). -/
theorem c6_start_sequence_spec (a fuel : Nat) (st st' : I2cState)
    (r : Except I2cError Unit) (h : start_sequence a fuel st = some (r, st')) :
    (∀ f s s', waitTcf f s = some s' → s'.s.tcf = true) ∧
    (r = Except.ok () → st'.c1.mst = true ∧ st'.c1.tx = true ∧
      st'.dLog = st.dLog ++ [a * 2 % 256] ∧ a * 2 % 256 % 2 = 0) ∧
    (∀ e, r = Except.error e → e = I2cError.ARBITRATION ∨ e = I2cError.NACK) := by
  obtain ⟨_, hk, hok⟩ := start_sequence_cases a fuel st st' r h
  refine ⟨fun f s s' hw => waitTcf_exit f s s' hw, ?_, hk⟩
  intro hr
  obtain ⟨h1, h2, h3, _⟩ := hok hr
  refine ⟨h1, h2, h3, ?_⟩
  rw [Nat.mod_mod_of_dvd _ (by norm_num : (2:ℕ) ∣ 256)]
  exact Nat.mul_mod_left a 2

/-- Witness for C6 at address 0x50 on a quiescent ready bus. -/
theorem c6_start_sequence_spec_witness :
    st6'.c1.mst = true ∧ st6'.c1.tx = true ∧
    st6'.dLog = st6.dLog ++ [80 * 2 % 256] ∧ 80 * 2 % 256 % 2 = 0 :=
  (c6_start_sequence_spec 80 4 st6 st6' (Except.ok ()) rfl).2.1 rfl

/-- Claim C7 (confirmed): a bus write of a zero-length payload to address
0x50 that terminates under a trace raising no error flag returns success,
never invokes `send_byte` (the ghost send counter is unchanged), and
performs the start/address phase (exactly the shifted address byte 0xA0 is
written to the data register) before the stop phase. -/
theorem c7_empty_write_success (fuel : Nat) (st st' : I2cState)
    (r : Except I2cError Unit) (hn : NoErr st)
    (h : i2c_write 80 [] fuel st = some (r, st')) :
    r = Except.ok () ∧ st'.sendCount = st.sendCount ∧
    st'.dLog = st.dLog ++ [160] := by
  obtain ⟨h1, h2, h3⟩ := i2c_write_nil_ok 80 fuel st st' r hn h
  refine ⟨h1, h3, ?_⟩
  simpa using h2

/-- Witness for C7 on a quiescent ready bus with an empty trace. -/
theorem c7_empty_write_success_witness :
    NoErr st7 ∧ ((Except.ok () : Except I2cError Unit) = Except.ok () ∧
      st7'.sendCount = st7.sendCount ∧ st7'.dLog = st7.dLog ++ [160]) := by
  have hn : NoErr st7 := ⟨rfl, rfl, fun e he => absurd he (List.not_mem_nil e)⟩
  exact ⟨hn, c7_empty_write_success 4 st7 st7' (Except.ok ()) hn rfl⟩

/-- Claim C8 (confirmed): `recv_byte` returns `Ok(0)` on every hardware
state and neither reads nor writes any register (the state is returned
unchanged). -/
theorem c8_recv_byte_stub (st : I2cState) : recv_byte st = (Except.ok 0, st) :=
  rfl

/-- Claim C10 (confirmed): every bus operation can only return the `NACK`
or `ARBITRATION` error kinds (`OVERRUN`, `TIMEOUT`, `BUS` and `CRC` are
never produced), and when a status read shows arbitration-lost and
not-acknowledged together, `ARBITRATION` is returned. -/
theorem c10_error_kinds :
    (∀ st, (readS st).1.arbl = true → (readS st).1.rxak = true →
      (check_and_clear_error_flags st).1 = Except.error I2cError.ARBITRATION) ∧
    (∀ st e, (check_and_clear_error_flags st).1 = Except.error e →
      e = I2cError.ARBITRATION ∨ e = I2cError.NACK) ∧
    (∀ a fuel st st' e, start_sequence a fuel st = some (Except.error e, st') →
      e = I2cError.ARBITRATION ∨ e = I2cError.NACK) ∧
    (∀ b fuel st st' e, send_byte b fuel st = some (Except.error e, st') →
      e = I2cError.ARBITRATION ∨ e = I2cError.NACK) ∧
    (∀ fuel st st' e, stop_sequence fuel st = some (Except.error e, st') →
      e = I2cError.ARBITRATION ∨ e = I2cError.NACK) ∧
    (∀ a bs fuel st st' e, write_bytes a bs fuel st = some (Except.error e, st') →
      e = I2cError.ARBITRATION ∨ e = I2cError.NACK) ∧
    (∀ a bs fuel st st' e, i2c_write a bs fuel st = some (Except.error e, st') →
      e = I2cError.ARBITRATION ∨ e = I2cError.NACK) :=
  ⟨fun st ha _ => check_arbl_priority st ha,
   fun st e h => check_err_kind st e h,
   fun a fuel st st' e h => (start_sequence_cases a fuel st st' _ h).2.1 e rfl,
   fun b fuel st st' e h => (send_byte_cases b fuel st st' _ h).2 e rfl,
   fun fuel st st' e h => (stop_sequence_cases fuel st st' _ h).2 e rfl,
   fun a bs fuel st st' e h => (write_bytes_err a bs fuel st st' _ h e rfl).1,
   fun a bs fuel st st' e h => (i2c_write_cases a bs fuel st st' _ h).2 e rfl⟩

/-- Witness for C10: on a state showing arbitration-lost and
not-acknowledged together the check returns `ARBITRATION`, and a full bus
write whose address phase is not acknowledged returns a permitted error
kind. -/
theorem c10_error_kinds_witness :
    (check_and_clear_error_flags stB).1 = Except.error I2cError.ARBITRATION ∧
    (I2cError.NACK = I2cError.ARBITRATION ∨ I2cError.NACK = I2cError.NACK) :=
  ⟨c10_error_kinds.1 stB rfl rfl,
   c10_error_kinds.2.2.2.2.2.2 80 [] 4 stN0 stN' I2cError.NACK rfl⟩
